import Mathlib

/-!
Shallow embedding of `variational_dropout.py` (variational dropout layers,
conversion engine, KL warm-up schedule, sparsity statistics) together with
theorems settling the specification claims.

Conventions: float arithmetic is modelled exactly (by `ℚ` where the code is
pure bookkeeping, by `ℝ` where logarithms/exponentials appear); tensors whose
numeric content matters are lists or `Fin`-indexed functions; Python
exceptions are an explicit error type.
-/

namespace VD

/-! ## KL warm-up schedule (`VariationalDropoutChain.__init__` / `calc_loss`) -/

/-- Module-level default `LOGA_THRESHOLD = 3.`. -/
def LOGA_THRESHOLD : ℚ := 3

/-- Embedding of `VariationalDropoutChain.__init__` (lines 339-345): the field
`kl_coef` starts at `0.` when `warm_up` is truthy and at `1.` when `warm_up`
is falsy (Python truthiness of a float: `0.0` is falsy). -/
def kl_coef_init (warm_up : ℚ) : ℚ :=
  if warm_up = 0 then 1 else 0

/-- Effect of one `calc_loss` call on `kl_coef` (line 381): when `add_kl` is
true the coefficient becomes `min(kl_coef + warm_up, 1.)`; when `add_kl` is
false the update is skipped entirely. -/
def calc_loss_kl_step (warm_up coef : ℚ) (add_kl : Bool) : ℚ :=
  if add_kl then min (coef + warm_up) 1 else coef

/-- The value of `kl_coef` after a sequence of `calc_loss` calls, each tagged
with its `add_kl` flag, starting from a freshly constructed chain. -/
def kl_coef_after (warm_up : ℚ) (calls : List Bool) : ℚ :=
  calls.foldl (fun c b => calc_loss_kl_step warm_up c b) (kl_coef_init warm_up)

/-! ## Layer tree and the conversion engine (`get_vd_link`,
`to_variational_dropout_link`) -/

/-- Default value put into `log_sigma2` by
`INITIAL_LOG_SIGMA2 = chainer.initializers.Constant(-10.)`. -/
def initialLogSigma2 : ℚ := -10

/-- Shape configuration and parameters of a (plain or VD) fully connected
layer. `W` is the flattened weight tensor; `b` is empty when `hasBias` is
false. -/
structure LinearCfg where
  inSize : ℕ
  outSize : ℕ
  hasBias : Bool
  W : List ℚ
  b : List ℚ
deriving DecidableEq

/-- Shape configuration and parameters of a (plain or VD) 2D convolution
layer. -/
structure ConvCfg where
  inChannels : ℕ
  outChannels : ℕ
  kh : ℕ
  kw : ℕ
  stride : ℕ × ℕ
  pad : ℕ × ℕ
  hasBias : Bool
  W : List ℚ
  b : List ℚ
deriving DecidableEq

/-- A node of a chainer link tree: plain layers, their variational-dropout
variants (which carry the extra `log_sigma2` tensor), an unsupported leaf
(`EmbedID` in `nets.py` is one such layer), and an inner `Chain` whose
children form a name-to-link mapping. -/
inductive Link where
  | linear : LinearCfg → Link
  | conv2d : ConvCfg → Link
  | vdLinear : LinearCfg → List ℚ → Link
  | vdConv2d : ConvCfg → List ℚ → Link
  | embedID : List ℚ → Link
  | chain : List (String × Link) → Link

/-- Python exceptions that the conversion path can surface. -/
inductive PyError where
  | notImplementedError
  | unboundLocalError
deriving DecidableEq

/-- An all-zero tensor, as produced for a bias by the chainer `Linear` /
`Convolution2D` constructors when `nobias` is falsy and no `initial_bias` is
given. -/
def zeros (n : ℕ) : List ℚ := List.replicate n 0

/-- Embedding of `get_vd_link` (lines 276-314), device bookkeeping elided
(the code moves the link to CPU and back, preserving parameter values).
For `L.Linear` it builds `VariationalDropoutLinear(in_size, out_size,
nobias=False, ...)` — a zero bias is always allocated — then copies `W.data`
in, and copies `b.data` only when the original link had a bias.  For
`L.Convolution2D` it passes `nobias=None` (falsy, so again a zero bias is
allocated) and copies kernel size, stride and padding.  `log_sigma2` is
initialized to the `-10.` constant at `W`'s shape.  Every other type reaches
the `else` branch, which evaluates `NotImplementedError()` WITHOUT raising
it, so execution falls through to `new_link.W.data[:] = ...` where the local
`new_link` was never bound: the call dies with an `UnboundLocalError`. -/
def get_vd_link : Link → Except PyError Link
  | Link.linear cfg =>
      Except.ok (Link.vdLinear
        { cfg with hasBias := true,
                   b := if cfg.hasBias then cfg.b else zeros cfg.outSize }
        (List.replicate cfg.W.length initialLogSigma2))
  | Link.conv2d cfg =>
      Except.ok (Link.vdConv2d
        { cfg with hasBias := true,
                   b := if cfg.hasBias then cfg.b else zeros cfg.outChannels }
        (List.replicate cfg.W.length initialLogSigma2))
  | _ => Except.error PyError.unboundLocalError

mutual

/-- Embedding of `to_variational_dropout_link` (lines 317-334): recurse into
every `Chain` child; at a leaf whose exact type is `L.Linear` or
`L.Convolution2D` (VD variants carry `is_variational_dropout` and are
excluded) replace it in the parent's child mapping, under the same name, by
`get_vd_link` of it; retain every other leaf unmodified. -/
def to_variational_dropout_link : Link → Link
  | Link.chain cs =>
      Link.chain (convertChildren cs)
  | Link.linear cfg =>
      match get_vd_link (Link.linear cfg) with
      | Except.ok newLink => newLink
      | Except.error _ => Link.linear cfg
  | Link.conv2d cfg =>
      match get_vd_link (Link.conv2d cfg) with
      | Except.ok newLink => newLink
      | Except.error _ => Link.conv2d cfg
  | l => l

/-- Conversion of a `Chain`'s child mapping, name by name. -/
def convertChildren : List (String × Link) → List (String × Link)
  | [] => []
  | (n, l) :: rest => (n, to_variational_dropout_link l) :: convertChildren rest

end

/-- Whether a link (leaf) owns a bias tensor; `none` for non-layer nodes. -/
def linkHasBias : Link → Option Bool
  | Link.linear cfg => some cfg.hasBias
  | Link.conv2d cfg => some cfg.hasBias
  | Link.vdLinear cfg _ => some cfg.hasBias
  | Link.vdConv2d cfg _ => some cfg.hasBias
  | _ => none

/-! ## Lazy parameter materialization (`VariationalDropoutLinear`) -/

/-- Materialization state of a VD-Linear layer's two parameter tensors:
`none` means the tensor exists but has no data yet (chainer's uninitialized
parameter), `some sh` means it was allocated with shape `sh`. -/
structure VDLinearShapes where
  outSize : ℕ
  wShape : Option (ℕ × ℕ)
  logSigma2Shape : Option (ℕ × ℕ)
deriving DecidableEq

/-- Embedding of `VariationalDropoutLinear._initialize_params` (lines
99-103): with `log_sigma2=False` it allocates `W` at `(out_size, in_size)`;
with `log_sigma2=True` it allocates `log_sigma2` instead. -/
def initialize_params (p : VDLinearShapes) (in_size : ℕ) (log_sigma2 : Bool) :
    VDLinearShapes :=
  if log_sigma2 then { p with logSigma2Shape := some (p.outSize, in_size) }
  else { p with wShape := some (p.outSize, in_size) }

/-- Embedding of `VariationalDropoutLinear.__init__` (lines 84-97): the
superclass allocates `W` only when `in_size` is known; `add_param` leaves
`log_sigma2` unmaterialized, and only the explicit
`_initialize_params(in_size, log_sigma2=True)` call — guarded by
`in_size is not None` — allocates it. -/
def vdLinear_init (in_size : Option ℕ) (out_size : ℕ) : VDLinearShapes :=
  match in_size with
  | some n =>
      initialize_params
        { outSize := out_size, wShape := some (out_size, n),
          logSigma2Shape := none } n true
  | none =>
      { outSize := out_size, wShape := none, logSigma2Shape := none }

/-- Parameter-materialization prefix of `VariationalDropoutLinear.__call__`
(lines 111-113): when `W.data is None` it calls
`self._initialize_params(x.size // x.shape[0])`, leaving the `log_sigma2`
flag at its default `False`. -/
def vdLinear_call_materialize (p : VDLinearShapes) (x_features : ℕ) :
    VDLinearShapes :=
  if p.wShape = none then initialize_params p x_features false else p

/-- Same for `VariationalDropoutConvolution2D` (lines 126-150, 173-176):
`__call__` runs `self._initialize_params(x.shape[1])` when `W.data is None`,
again with `log_sigma2` left `False`. The tracked state reuses
`VDLinearShapes` with `wShape`/`logSigma2Shape` standing for the full
4-dimensional kernel shape being allocated or not. -/
def vdConv_call_materialize (p : VDLinearShapes) (x_channels : ℕ) :
    VDLinearShapes :=
  if p.wShape = none then initialize_params p x_channels false else p

/-! ## Tanh-RNN state semantics (`VariationalDropoutTanhRNN.__call__`) -/

/-- Embedding of `VariationalDropoutTanhRNN.__call__` (lines 201-218).  The
composite `forward` argument stands for `F.tanh(self.W(F.concat([x, h])))`
applied to the concatenated input (the inner VD-Linear's numerics live in the
external `vd_functions` module and are irrelevant to the state frame).
Returns the produced hidden vector together with the stored state `self.h`
after the call.  Note the `else` branch: a stateless call (external `h`
supplied) executes `self.h = None`. -/
def tanhRNN_call (forward : List ℚ → List ℚ) (out_size batch : ℕ)
    (stored : Option (List ℚ)) (x : List ℚ) (hArg : Option (List ℚ)) :
    List ℚ × Option (List ℚ) :=
  match hArg with
  | none =>
      let h := match stored with
               | none => zeros (batch * out_size)
               | some h0 => h0
      let new_h := forward (x ++ h)
      (new_h, some new_h)
  | some h =>
      (forward (x ++ h), none)

/-! ## LSTM gate input (`VariationalDropoutLSTM.__call__`) -/

/-- Elementwise sum of two activation vectors. -/
def vecAdd (a b : List ℚ) : List ℚ := List.zipWith (· + ·) a b

/-- Embedding of the gate-input computation in
`VariationalDropoutLSTM.__call__` (lines 255-265), at
`user_memory_efficiency <= 2` (`F.forget(f, x)` recomputes `f x` on the
backward pass and is numerically identical): `lstm_in = self.upward(x)`, and
when a previous hidden state exists the code adds `self.lateral(x)` — the
lateral projection is applied to the current input `x`, and the stored `h`
itself never enters.  `upward` and `lateral` stand for the two sub-links'
forward functions. -/
def vdLSTM_gate_input (upward lateral : List ℚ → List ℚ)
    (stored_h : Option (List ℚ)) (x : List ℚ) : List ℚ :=
  let lstm_in := upward x
  match stored_h with
  | some _ => vecAdd lstm_in (lateral x)
  | none => lstm_in

/-- An identity projection, used as a concrete `upward` witness function. -/
def projId (v : List ℚ) : List ℚ := v

/-- A doubling projection, used as a concrete `lateral` witness function. -/
def projDouble (v : List ℚ) : List ℚ := v.map (fun q => 2 * q)

/-! ## Device handling of `VariationalDropoutChain.to_cpu_sparse` -/

/-- Memory space a chain currently lives in. -/
inductive Device where
  | cpu
  | gpu
deriving DecidableEq

/-- Device/warning state observed by `to_cpu_sparse`. -/
structure SparseCtx where
  dev : Device
  warned : Bool
deriving DecidableEq

/-- Embedding of `chainer.Chain.to_cpu`: after it, `self.xp is numpy`. -/
def chain_to_cpu (s : SparseCtx) : SparseCtx := { s with dev := Device.cpu }

/-- Embedding of the entry of `VariationalDropoutChain.to_cpu_sparse` (lines
405-412): line 406 runs `self.to_cpu()` first, and only afterwards does line
409 test `self.xp is not numpy` and warn. -/
def to_cpu_sparse_entry (s : SparseCtx) : SparseCtx :=
  let s1 := chain_to_cpu s
  if s1.dev ≠ Device.cpu then { s1 with warned := true } else s1

/-! ## Log-alpha, pruning probabilities and aggregate statistics -/

/-- Elementwise clipping of a value to the interval `[lo, hi]`. -/
noncomputable def clip (x lo hi : ℝ) : ℝ := max lo (min hi x)

/-- Modelled from the spec: `calculate_log_alpha` lives in the external
`vd_functions` module, which is absent from `src/`; the spec defines it as
`log_sigma2 - log(W^2 + eps)` clipped elementwise to `[lo, hi]`. -/
noncomputable def calculate_log_alpha (w log_sigma2 eps lo hi : ℝ) : ℝ :=
  clip (log_sigma2 - Real.log (w ^ 2 + eps)) lo hi

/-- Parameters of one variational-dropout link as seen by the statistics
code: the flattened `W` and `log_sigma2` tensors. -/
structure VDLinkP where
  W : List ℝ
  logSigma2 : List ℝ

/-- Embedding of `calculate_p` (lines 39-46):
`alpha = exp(calculate_log_alpha(W, log_sigma2, eps=1e-8,
thresholds=(-8., 8.)))` and `p = alpha / (1 + alpha)`, elementwise over the
weight tensor. -/
noncomputable def calculate_p (l : VDLinkP) : List ℝ :=
  List.zipWith
    (fun w s =>
      let alpha := Real.exp (calculate_log_alpha w s (1e-8) (-8) 8)
      alpha / (1 + alpha))
    l.W l.logSigma2

/-- A link tree as traversed by `get_vd_links`: VD leaves (carrying their
parameters), non-VD leaves, and chains. -/
inductive StatLink where
  | vd : VDLinkP → StatLink
  | plain : StatLink
  | chain : List StatLink → StatLink

mutual

/-- Embedding of `get_vd_links` (lines 29-36): recursively yield every child
link with a truthy `is_variational_dropout` attribute. -/
def get_vd_links : StatLink → List VDLinkP
  | StatLink.vd l => [l]
  | StatLink.plain => []
  | StatLink.chain cs => get_vd_links_list cs

/-- Flattened traversal of a chain's children. -/
def get_vd_links_list : List StatLink → List VDLinkP
  | [] => []
  | c :: rest => get_vd_links c ++ get_vd_links_list rest

end

/-- Aggregate statistics returned by `calculate_stats`: the mean pruning
probability, the sparsity fraction, and the `W/Wnz` compression value, which
can be infinite. -/
structure VDStats where
  meanP : ℝ
  sparsity : ℝ
  wOverWnz : EReal

/-- Embedding of `calculate_stats` (lines 49-79), threshold-mismatch warning
elided: concatenate the flattened `calculate_p` of every VD link (returning
the empty-`defaultdict` marker `none` when there is no VD link), take
`is_zero = (all_p > threshold)` elementwise, report
`sparsity = mean(is_zero)`, `n_non_zero = (1 - is_zero).sum()`, and
`W/Wnz = inf` when `n_non_zero == 0` and `all_p.size / n_non_zero`
otherwise. -/
noncomputable def calculate_stats (c : StatLink) (threshold : ℝ) :
    Option VDStats :=
  let links := get_vd_links c
  let all_p := (links.map calculate_p).flatten
  if links.isEmpty then none
  else
    let is_zero : List ℝ := all_p.map (fun p => if threshold < p then 1 else 0)
    let n_non_zero : ℝ := (is_zero.map (fun z => 1 - z)).sum
    some
      { meanP := all_p.sum / all_p.length
        sparsity := is_zero.sum / all_p.length
        wOverWnz :=
          if n_non_zero = 0 then (⊤ : EReal)
          else (((all_p.length : ℝ) / n_non_zero : ℝ) : EReal) }

/-! ## VD-Convolution2D forward pass -/

/-- Zero-padded read of an input feature map at integer coordinates. -/
def padded {ci ih iw : ℕ} (x : Fin ci → Fin ih → Fin iw → ℝ) (c : Fin ci)
    (i j : ℤ) : ℝ :=
  if h : 0 ≤ i ∧ i < (ih : ℤ) ∧ 0 ≤ j ∧ j < (iw : ℤ) then
    x c ⟨i.toNat, by omega⟩ ⟨j.toNat, by omega⟩
  else 0

/-- Model of the host substrate's `F.convolution_2d` (an external interface
per the spec): cross-correlation of a batchless multi-channel input with a
kernel bank, with stride `(sy, sx)` and zero padding `(py, px)`, summed over
input channels; output spatial size is a parameter. -/
noncomputable def conv2d {ci ih iw co kh kw : ℕ} (oh ow sy sx py px : ℕ)
    (x : Fin ci → Fin ih → Fin iw → ℝ)
    (k : Fin co → Fin ci → Fin kh → Fin kw → ℝ) :
    Fin co → Fin oh → Fin ow → ℝ :=
  fun o i j =>
    ∑ c : Fin ci, ∑ u : Fin kh, ∑ v : Fin kw,
      padded x c ((sy : ℤ) * (i : ℤ) + (u : ℤ) - (py : ℤ))
        ((sx : ℤ) * (j : ℤ) + (v : ℤ) - (px : ℤ)) * k o c u v

/-- Elementwise `log_alpha` of a convolution kernel, as computed at line
155: `VDF.calculate_log_alpha(self.W, self.log_sigma2, eps=1e-8,
thresholds=(-8., 8.))`. -/
noncomputable def conv_log_alpha {co ci kh kw : ℕ}
    (W logSigma2 : Fin co → Fin ci → Fin kh → Fin kw → ℝ) :
    Fin co → Fin ci → Fin kh → Fin kw → ℝ :=
  fun o c u v => calculate_log_alpha (W o c u v) (logSigma2 o c u v) (1e-8) (-8) 8

/-- Elementwise pruning mask of a convolution kernel, as computed at line
157: `clip_mask = (log_alpha.data > self.loga_threshold)`, represented as a
0/1 tensor (numpy booleans participate in float arithmetic as 0/1). -/
noncomputable def conv_clip_mask {co ci kh kw : ℕ} (loga_threshold : ℝ)
    (W logSigma2 : Fin co → Fin ci → Fin kh → Fin kw → ℝ) :
    Fin co → Fin ci → Fin kh → Fin kw → ℝ :=
  fun o c u v =>
    if loga_threshold < conv_log_alpha W logSigma2 o c u v then 1 else 0

/-- Embedding of
`VariationalDropoutConvolution2D.dropout_convolution_2d` (lines 152-171).
In the training branch the code first reassigns `W = (1. - clip_mask) * W`
(line 159), so the variance convolution's kernel
`F.exp(log_alpha) * W * W` uses the MASKED weight, and the mean
convolution's kernel `(1. - clip_mask) * W` masks a second time;
`si = sqrt(conv + 1e-8)`, the output is `mu + si * noise` with the bias added
afterwards by `F.bias`.  In the eval branch the output is the single masked
convolution with the bias. -/
noncomputable def dropout_convolution_2d {ci ih iw co kh kw oh ow : ℕ}
    (train : Bool) (loga_threshold : ℝ)
    (W logSigma2 : Fin co → Fin ci → Fin kh → Fin kw → ℝ) (b : Fin co → ℝ)
    (sy sx py px : ℕ) (x : Fin ci → Fin ih → Fin iw → ℝ)
    (noise : Fin co → Fin oh → Fin ow → ℝ) :
    Fin co → Fin oh → Fin ow → ℝ :=
  let log_alpha := conv_log_alpha W logSigma2
  let clip_mask := conv_clip_mask loga_threshold W logSigma2
  if train then
    let W1 := fun o c u v => (1 - clip_mask o c u v) * W o c u v
    let mu := conv2d oh ow sy sx py px x
      (fun o c u v => (1 - clip_mask o c u v) * W1 o c u v)
    let si := fun o i j =>
      Real.sqrt (conv2d oh ow sy sx py px
        (fun c i j => x c i j * x c i j)
        (fun o c u v => Real.exp (log_alpha o c u v) * W1 o c u v * W1 o c u v)
        o i j + 1e-8)
    fun o i j => mu o i j + si o i j * noise o i j + b o
  else
    fun o i j =>
      conv2d oh ow sy sx py px x
        (fun o c u v => (1 - clip_mask o c u v) * W o c u v) o i j + b o

/-- Training-regime output formula in the words of the claim: the variance
convolution's kernel is `exp(log_alpha) ⊙ W²` with `W` the UNMASKED weight
tensor, while the mean convolution masks: `mu = conv(x, (1 - clip_mask) ⊙ W)`
and the output is `mu + sqrt(var + eps) ⊙ noise` plus the bias. -/
noncomputable def vdconv_claim_unmasked {ci ih iw co kh kw oh ow : ℕ}
    (loga_threshold : ℝ)
    (W logSigma2 : Fin co → Fin ci → Fin kh → Fin kw → ℝ) (b : Fin co → ℝ)
    (sy sx py px : ℕ) (x : Fin ci → Fin ih → Fin iw → ℝ)
    (noise : Fin co → Fin oh → Fin ow → ℝ) :
    Fin co → Fin oh → Fin ow → ℝ :=
  let log_alpha := conv_log_alpha W logSigma2
  let clip_mask := conv_clip_mask loga_threshold W logSigma2
  let mu := conv2d oh ow sy sx py px x
    (fun o c u v => (1 - clip_mask o c u v) * W o c u v)
  fun o i j =>
    mu o i j
      + Real.sqrt (conv2d oh ow sy sx py px
          (fun c i j => x c i j * x c i j)
          (fun o c u v => Real.exp (log_alpha o c u v) * W o c u v ^ 2)
          o i j + 1e-8) * noise o i j
      + b o

/-- Training-regime output formula with the variance kernel built from the
MASKED weight `(1 - clip_mask) ⊙ W` (and the mean convolution masking only
once) — the amended reading of the claim, matching the code. -/
noncomputable def vdconv_spec_masked {ci ih iw co kh kw oh ow : ℕ}
    (loga_threshold : ℝ)
    (W logSigma2 : Fin co → Fin ci → Fin kh → Fin kw → ℝ) (b : Fin co → ℝ)
    (sy sx py px : ℕ) (x : Fin ci → Fin ih → Fin iw → ℝ)
    (noise : Fin co → Fin oh → Fin ow → ℝ) :
    Fin co → Fin oh → Fin ow → ℝ :=
  let log_alpha := conv_log_alpha W logSigma2
  let clip_mask := conv_clip_mask loga_threshold W logSigma2
  let maskedW := fun o c u v => (1 - clip_mask o c u v) * W o c u v
  let mu := conv2d oh ow sy sx py px x maskedW
  fun o i j =>
    mu o i j
      + Real.sqrt (conv2d oh ow sy sx py px
          (fun c i j => x c i j * x c i j)
          (fun o c u v => Real.exp (log_alpha o c u v) * maskedW o c u v ^ 2)
          o i j + 1e-8) * noise o i j
      + b o

/-- Concatenation of the flattened per-link pruning probabilities of every
VD link of a network, in traversal order (`all_p` at lines 55-59). -/
noncomputable def all_p_of (c : StatLink) : List ℝ :=
  ((get_vd_links c).map calculate_p).flatten

/-- Statistics in the words of the claim: the sparsity is the fraction of
per-weight probabilities `p` strictly exceeding the threshold, and the
compression value `W/Wnz` is the total weight count divided by the number of
weights with `p ≤ threshold`, infinite when that number is zero. -/
noncomputable def statsClaimForm (c : StatLink) (threshold : ℝ) : VDStats :=
  { meanP := (all_p_of c).sum / (all_p_of c).length
    sparsity := ((all_p_of c).countP (fun p => decide (threshold < p)) : ℝ)
      / (all_p_of c).length
    wOverWnz :=
      if (all_p_of c).countP (fun p => decide (p ≤ threshold)) = 0 then (⊤ : EReal)
      else ((((all_p_of c).length : ℝ)
        / ((all_p_of c).countP (fun p => decide (p ≤ threshold)) : ℝ) : ℝ) : EReal) }

/-! ## Helper lemmas -/

/-- Starting at or below the cap, `kl_coef` never decreases along a run of
`calc_loss` calls and never exceeds `1`. -/
theorem kl_foldl_le_and_le_one (w : ℚ) (hw : 0 ≤ w) :
    ∀ (l : List Bool) (c : ℚ), c ≤ 1 →
      c ≤ l.foldl (fun c b => calc_loss_kl_step w c b) c
        ∧ l.foldl (fun c b => calc_loss_kl_step w c b) c ≤ 1 := by
  intro l
  induction l with
  | nil => intro c hc; exact ⟨le_refl c, hc⟩
  | cons b tl ih =>
      intro c hc
      have hstep : c ≤ calc_loss_kl_step w c b ∧ calc_loss_kl_step w c b ≤ 1 := by
        cases b with
        | false =>
            have he : calc_loss_kl_step w c false = c := rfl
            rw [he]
            exact ⟨le_refl c, hc⟩
        | true =>
            have he : calc_loss_kl_step w c true = min (c + w) 1 := rfl
            rw [he]
            exact ⟨le_min (by linarith) hc, min_le_right _ _⟩
      have := ih (calc_loss_kl_step w c b) hstep.2
      simp only [List.foldl_cons]
      exact ⟨le_trans hstep.1 this.1, this.2⟩

/-- Closed form of the warm-up fold over a run of `n` consecutive
`add_kl=True` calls with increment `1/10`. -/
theorem kl_foldl_replicate (n : ℕ) :
    ∀ c : ℚ, c ≤ 1 →
      (List.replicate n true).foldl (fun c b => calc_loss_kl_step (1/10) c b) c
        = min (c + n / 10) 1 := by
  induction n with
  | zero =>
      intro c hc
      simp [min_eq_left, hc]
  | succ n ih =>
      intro c hc
      have hrep : List.replicate (n + 1) true = true :: List.replicate n true :=
        List.replicate_succ true n
      rw [hrep]
      simp only [List.foldl_cons]
      have hstep : calc_loss_kl_step (1/10) c true = min (c + 1/10) 1 := rfl
      rw [hstep, ih (min (c + 1/10) 1) (min_le_right _ _)]
      have hn : (0 : ℚ) ≤ (n : ℚ) / 10 := by positivity
      rcases le_or_lt (c + 1/10) 1 with h | h
      · rw [min_eq_left h]
        push_cast
        ring_nf
      · rw [min_eq_right (le_of_lt h)]
        have h1 : (1 : ℚ) ≤ 1 + (n : ℚ) / 10 := by linarith
        have h2 : (1 : ℚ) ≤ c + ((n : ℕ) + 1 : ℕ) / 10 := by
          push_cast
          linarith
        rw [min_eq_right h1, min_eq_right h2]

/-- Conversion of a chain's children is a pointwise map preserving names. -/
theorem convertChildren_eq_map (cs : List (String × Link)) :
    convertChildren cs = cs.map (fun c => (c.1, to_variational_dropout_link c.2)) := by
  induction cs with
  | nil => rfl
  | cons hd tl ih => simp [convertChildren, ih]

/-! ## Claim theorems -/

/-- C10: a `VariationalDropoutChain` constructed with `warm_up = 0` starts
with `kl_coef = 1` (full-weight KL from the first `calc_loss` call), while
any nonzero `warm_up` starts it at `0`. -/
theorem C10_initial_kl_coef :
    kl_coef_init 0 = 1 ∧ ∀ w : ℚ, w ≠ 0 → kl_coef_init w = 0 := by
  refine ⟨by simp [kl_coef_init], ?_⟩
  intro w hw
  simp [kl_coef_init, hw]

/-- Witness for C10 at the concrete nonzero warm-up `1/10`. -/
theorem C10_witness :
    kl_coef_init 0 = 1 ∧ ((1 : ℚ)/10 ≠ 0 ∧ kl_coef_init (1/10) = 0) :=
  ⟨C10_initial_kl_coef.1, by norm_num,
    C10_initial_kl_coef.2 (1/10) (by norm_num)⟩

/-- C5: with `warm_up = 1/10`, after `n` calls to `calc_loss(add_kl=True)`
the coefficient equals `min(n/10, 1)`; and across any sequence of
`calc_loss` calls (with or without `add_kl`), `kl_coef` is monotonically
non-decreasing under extension and stays within `[0, 1]`. -/
theorem C5_kl_coef_schedule :
    (∀ n : ℕ, kl_coef_after (1/10) (List.replicate n true) = min ((n : ℚ) / 10) 1)
    ∧ (∀ calls extra : List Bool,
        kl_coef_after (1/10) calls ≤ kl_coef_after (1/10) (calls ++ extra))
    ∧ (∀ calls : List Bool,
        0 ≤ kl_coef_after (1/10) calls ∧ kl_coef_after (1/10) calls ≤ 1) := by
  have hinit : kl_coef_init (1/10) = 0 := by norm_num [kl_coef_init]
  refine ⟨?_, ?_, ?_⟩
  · intro n
    unfold kl_coef_after
    rw [hinit, kl_foldl_replicate n 0 (by norm_num), zero_add]
  · intro calls extra
    unfold kl_coef_after
    rw [hinit, List.foldl_append]
    have h1 := kl_foldl_le_and_le_one (1/10) (by norm_num) calls 0 (by norm_num)
    have h2 := kl_foldl_le_and_le_one (1/10) (by norm_num) extra _ h1.2
    exact h2.1
  · intro calls
    unfold kl_coef_after
    rw [hinit]
    have h1 := kl_foldl_le_and_le_one (1/10) (by norm_num) calls 0 (by norm_num)
    exact h1

/-- C1 counterexample: converting a bias-free plain `Linear` produces a VD
layer that HAS a bias (`get_vd_link` hard-codes `nobias=False`), so the
"identical bias presence" part of the claim fails. -/
theorem C1_counterexample :
    linkHasBias (to_variational_dropout_link
        (Link.linear
          { inSize := 1, outSize := 1, hasBias := false, W := [2], b := [] }))
      = some true
    ∧ linkHasBias
        (Link.linear
          { inSize := 1, outSize := 1, hasBias := false, W := [2], b := [] })
      = some false := by
  exact ⟨rfl, rfl⟩

/-- C1 (amended): the conversion engine maps a chain's child mapping
pointwise under the same names; it replaces each plain `Linear` and
`Convolution2D` leaf by a VD variant with identical in/out sizes, kernel
size, stride and padding, the original `W` copied, `b` copied when the
original has a bias and a fresh zero bias allocated when it does not (bias
presence is NOT preserved for bias-free originals), and `log_sigma2`
initialized to the `-10` constant at `W`'s size; already-VD leaves and
unsupported leaves are left unmodified. -/
theorem C1_conversion_amended :
    (∀ cs, to_variational_dropout_link (Link.chain cs)
        = Link.chain (cs.map (fun c => (c.1, to_variational_dropout_link c.2))))
    ∧ (∀ cfg : LinearCfg, to_variational_dropout_link (Link.linear cfg)
        = Link.vdLinear
            { cfg with hasBias := true,
                       b := if cfg.hasBias then cfg.b else zeros cfg.outSize }
            (List.replicate cfg.W.length initialLogSigma2))
    ∧ (∀ cfg : ConvCfg, to_variational_dropout_link (Link.conv2d cfg)
        = Link.vdConv2d
            { cfg with hasBias := true,
                       b := if cfg.hasBias then cfg.b else zeros cfg.outChannels }
            (List.replicate cfg.W.length initialLogSigma2))
    ∧ (∀ cfg ls, to_variational_dropout_link (Link.vdLinear cfg ls)
        = Link.vdLinear cfg ls)
    ∧ (∀ cfg ls, to_variational_dropout_link (Link.vdConv2d cfg ls)
        = Link.vdConv2d cfg ls)
    ∧ (∀ w, to_variational_dropout_link (Link.embedID w) = Link.embedID w) := by
  refine ⟨?_, ?_, ?_, ?_, ?_, ?_⟩
  · intro cs
    rw [to_variational_dropout_link, convertChildren_eq_map]
  · intro cfg; rfl
  · intro cfg; rfl
  · intro cfg ls; rfl
  · intro cfg ls; rfl
  · intro w; rfl

/-- C9: the per-layer conversion constructor applied to an unsupported layer
type fails — but not with the explicit `NotImplementedError` the claim
describes: the `else` branch builds that exception without raising it and
then falls into `new_link.W.data[:] = ...` with `new_link` unbound, so the
observable failure is an `UnboundLocalError`. -/
theorem C9_unsupported_raises_unbound_local :
    get_vd_link (Link.embedID [1, 2]) = Except.error PyError.unboundLocalError
    ∧ get_vd_link (Link.embedID [1, 2])
        ≠ Except.error PyError.notImplementedError := by
  refine ⟨rfl, ?_⟩
  intro h
  have h2 : PyError.unboundLocalError = PyError.notImplementedError :=
    Except.error.inj h
  exact PyError.noConfusion h2

/-- C2: in the LSTM call with a previous hidden state present, the gate
input is `upward(x) + lateral(x)` — the lateral projection is applied to the
CURRENT INPUT, not to the previous hidden state.  Concretely, with
`upward = id`, `lateral = double`, input `x = [1]` and stored `h = [3]`, the
code produces `[3]`, whereas the claim's `upward(x) + lateral(h)` is `[7]`;
without a previous hidden state only the upward term appears. -/
theorem C2_lateral_applied_to_input :
    vdLSTM_gate_input projId projDouble (some [3]) [1]
      = vecAdd (projId [1]) (projDouble [1])
    ∧ vdLSTM_gate_input projId projDouble (some [3]) [1]
        ≠ vecAdd (projId [1]) (projDouble [3])
    ∧ vdLSTM_gate_input projId projDouble none [1] = projId [1] := by
  refine ⟨rfl, ?_, rfl⟩
  intro h
  have h3 : (3 : ℚ) = 7 := by
    have h1 : vdLSTM_gate_input projId projDouble (some [3]) [1] = [(3 : ℚ)] := by
      norm_num [vdLSTM_gate_input, vecAdd, projId, projDouble]
    have h2 : vecAdd (projId [1]) (projDouble [3]) = [(7 : ℚ)] := by
      norm_num [vecAdd, projId, projDouble]
    rw [h1, h2] at h
    exact List.head_eq_of_cons_eq h
  norm_num at h3

/-- C3: a VD-Linear built with unknown input size allocates only `W` on the
first call — `__call__` invokes `_initialize_params` with the `log_sigma2`
flag left `False` — so `log_sigma2` stays unmaterialized and does not share
`W`'s shape, unlike the known-size constructor path (and unlike the claim);
the convolution layer's lazy path behaves the same way. -/
theorem C3_lazy_init_skips_log_sigma2 :
    (vdLinear_call_materialize (vdLinear_init none 5) 4).wShape = some (5, 4)
    ∧ (vdLinear_call_materialize (vdLinear_init none 5) 4).logSigma2Shape = none
    ∧ (vdLinear_init (some 4) 5).logSigma2Shape = some (5, 4)
    ∧ (vdConv_call_materialize
        { outSize := 5, wShape := none, logSigma2Shape := none } 3).wShape
        = some (5, 3)
    ∧ (vdConv_call_materialize
        { outSize := 5, wShape := none, logSigma2Shape := none } 3).logSigma2Shape
        = none := by
  decide

/-- C4: `to_cpu_sparse` begins by calling `self.to_cpu()` itself, so a
network resident on the accelerator is silently auto-migrated to host
memory and the `xp is not numpy` warning can never fire: starting from GPU
the device ends up CPU with `warned` still false, and in general the warning
flag is left exactly as it was. -/
theorem C4_to_cpu_sparse_auto_migrates :
    to_cpu_sparse_entry { dev := Device.gpu, warned := false }
      = { dev := Device.cpu, warned := false }
    ∧ ∀ s : SparseCtx,
        to_cpu_sparse_entry s = { dev := Device.cpu, warned := s.warned } := by
  refine ⟨rfl, ?_⟩
  intro s
  simp [to_cpu_sparse_entry, chain_to_cpu]

/-- C7 counterexample: a stateless call (external `h` supplied) does NOT
leave the internal stored state untouched — starting from stored state
`[5]`, after the call the stored state is `None`, not `[5]`. -/
theorem C7_counterexample :
    (tanhRNN_call projId 1 1 (some [5]) [1] (some [7])).2 = none
    ∧ (tanhRNN_call projId 1 1 (some [5]) [1] (some [7])).2 ≠ some [5] := by
  decide

/-- C7 (amended): a stateless call resets the internal stored state to
uninitialized (`None`) rather than leaving it untouched, while a stateful
call stores the newly computed hidden state (which therefore persists
across stateful calls). -/
theorem C7_state_semantics_amended :
    (∀ (f : List ℚ → List ℚ) (o bsz : ℕ) (stored : Option (List ℚ)) (x h : List ℚ),
        (tanhRNN_call f o bsz stored x (some h)).2 = none)
    ∧ (∀ (f : List ℚ → List ℚ) (o bsz : ℕ) (stored : Option (List ℚ)) (x : List ℚ),
        (tanhRNN_call f o bsz stored x none).2
          = some (f (x ++ stored.getD (zeros (bsz * o))))) := by
  constructor
  · intro f o bsz stored x h; rfl
  · intro f o bsz stored x
    cases stored <;> rfl

/-- Mean-of-indicators numerator: summing the 0/1 array `(all_p > t)` counts
the entries strictly above `t`. -/
theorem sum_indicator_eq_countP (t : ℝ) (P : List ℝ) :
    (P.map (fun p => if t < p then (1 : ℝ) else 0)).sum
      = (P.countP (fun p => decide (t < p)) : ℝ) := by
  induction P with
  | nil => simp
  | cons a l ih =>
      by_cases hap : t < a
      · simp only [List.map_cons, List.sum_cons, List.countP_cons, hap, if_true,
          decide_eq_true_eq, ih]
        push_cast
        ring
      · simp only [List.map_cons, List.sum_cons, List.countP_cons, hap, if_false,
          decide_eq_true_eq, ih]
        push_cast
        simp [hap]

/-- Summing `1 - is_zero` over the indicator array counts the entries at or
below `t`. -/
theorem sum_one_sub_indicator_eq_countP (t : ℝ) (P : List ℝ) :
    ((P.map (fun p => if t < p then (1 : ℝ) else 0)).map (fun z => 1 - z)).sum
      = (P.countP (fun p => decide (p ≤ t)) : ℝ) := by
  induction P with
  | nil => simp
  | cons a l ih =>
      by_cases hap : t < a
      · have hle : ¬ a ≤ t := not_le.mpr hap
        simp only [List.map_cons, List.sum_cons, List.countP_cons, hap, hle,
          if_true, if_false, decide_eq_true_eq, ih]
        push_cast
        simp [hle]
      · have hle : a ≤ t := not_lt.mp hap
        simp only [List.map_cons, List.sum_cons, List.countP_cons, hap, hle,
          if_true, if_false, decide_eq_true_eq, ih]
        push_cast
        simp [hap, hle]
        ring

/-- C8: on a network with at least one VD layer, `calculate_stats` returns
exactly the claim's statistics: the sparsity equals the fraction of
per-weight probabilities `p = alpha/(1+alpha)` strictly exceeding the
threshold, and `W/Wnz` equals total weights over the number of weights with
`p ≤ threshold`, `+inf` when every weight exceeds the threshold. -/
theorem C8_calculate_stats_spec (c : StatLink) (t : ℝ)
    (h : get_vd_links c ≠ []) :
    calculate_stats c t = some (statsClaimForm c t) := by
  have hne : (get_vd_links c).isEmpty = false := by
    cases hgl : get_vd_links c with
    | nil => exact absurd hgl h
    | cons a l => rfl
  unfold calculate_stats statsClaimForm all_p_of
  simp only [hne, Bool.false_eq_true, if_false]
  have h1 := sum_indicator_eq_countP t ((get_vd_links c).map calculate_p).flatten
  have h2 := sum_one_sub_indicator_eq_countP t
    ((get_vd_links c).map calculate_p).flatten
  congr 1
  rw [h1, h2]
  by_cases hc : ((get_vd_links c).map calculate_p).flatten.countP
      (fun p => decide (p ≤ t)) = 0
  · rw [if_pos (by exact_mod_cast hc), if_pos hc]
  · rw [if_neg (by exact_mod_cast hc), if_neg hc]

/-- Witness for C8 on a concrete two-leaf chain whose single VD link has one
weight. -/
theorem C8_witness :
    calculate_stats
        (StatLink.chain [StatLink.vd { W := [1], logSigma2 := [0] },
          StatLink.plain]) (95/100)
      = some (statsClaimForm
          (StatLink.chain [StatLink.vd { W := [1], logSigma2 := [0] },
            StatLink.plain]) (95/100)) :=
  C8_calculate_stats_spec _ _ (by simp [get_vd_links, get_vd_links_list])

/-- C6 (amended): in the stochastic training regime the VD-Convolution2D
output equals `conv(x, (1-clip_mask)⊙W) + sqrt(conv(x², exp(log_alpha) ⊙
((1-clip_mask)⊙W)²) + eps) ⊙ noise + bias` — i.e. the variance convolution's
kernel is built from the MASKED weight tensor, with stride and padding
applied identically to both convolutions. -/
theorem C6_variance_uses_masked_weight {ci ih iw co kh kw oh ow : ℕ}
    (loga_threshold : ℝ)
    (W logSigma2 : Fin co → Fin ci → Fin kh → Fin kw → ℝ) (b : Fin co → ℝ)
    (sy sx py px : ℕ) (x : Fin ci → Fin ih → Fin iw → ℝ)
    (noise : Fin co → Fin oh → Fin ow → ℝ) :
    dropout_convolution_2d true loga_threshold W logSigma2 b sy sx py px x noise
      = vdconv_spec_masked loga_threshold W logSigma2 b sy sx py px x noise := by
  unfold dropout_convolution_2d vdconv_spec_masked
  simp only [if_true]
  have hk1 :
      (fun o c u v => (1 - conv_clip_mask loga_threshold W logSigma2 o c u v)
          * ((1 - conv_clip_mask loga_threshold W logSigma2 o c u v) * W o c u v))
        = fun o c u v =>
            (1 - conv_clip_mask loga_threshold W logSigma2 o c u v) * W o c u v := by
    funext o c u v
    unfold conv_clip_mask
    by_cases hm : loga_threshold < conv_log_alpha W logSigma2 o c u v
    · rw [if_pos hm]; ring
    · rw [if_neg hm]; ring
  have hk2 :
      (fun o c u v => Real.exp (conv_log_alpha W logSigma2 o c u v)
          * ((1 - conv_clip_mask loga_threshold W logSigma2 o c u v) * W o c u v)
          * ((1 - conv_clip_mask loga_threshold W logSigma2 o c u v) * W o c u v))
        = fun o c u v => Real.exp (conv_log_alpha W logSigma2 o c u v)
            * ((1 - conv_clip_mask loga_threshold W logSigma2 o c u v) * W o c u v) ^ 2 := by
    funext o c u v
    ring
  rw [hk1, hk2]

/-- Value of `log_alpha` at a weight of `1` with `log_sigma2 = 10`: the raw
`10 - log(1 + 1e-8)` exceeds the upper threshold, so the clip saturates at
`8`. -/
theorem la_one_ten : calculate_log_alpha 1 10 (1e-8) (-8) 8 = 8 := by
  unfold calculate_log_alpha clip
  have h0 : ((1 : ℝ) ^ 2 + 1e-8) = 1 + 1e-8 := by norm_num
  rw [h0]
  have hpos : (0 : ℝ) < 1 + 1e-8 := by norm_num
  have hlog : Real.log (1 + 1e-8) ≤ 1e-8 := by
    have hs := Real.log_le_sub_one_of_pos hpos
    linarith
  have h8 : (8 : ℝ) ≤ 10 - Real.log (1 + 1e-8) := by linarith
  rw [min_eq_left h8]
  exact max_eq_right (by norm_num)

/-- C6 counterexample: a 1×1×1×1 layer with `W = 1`, `log_sigma2 = 10` (so
`log_alpha = 8 > 3` and the weight is pruned), unit input and unit noise.
The code's variance term masks the pruned weight, giving output
`sqrt(1e-8)`, while the claim's unmasked-`W` variance gives
`sqrt(exp 8 + 1e-8)`; the two differ. -/
theorem C6_counterexample :
    dropout_convolution_2d true 3
        ((fun _ _ _ _ => 1) : Fin 1 → Fin 1 → Fin 1 → Fin 1 → ℝ)
        ((fun _ _ _ _ => 10) : Fin 1 → Fin 1 → Fin 1 → Fin 1 → ℝ)
        ((fun _ => 0) : Fin 1 → ℝ) 1 1 0 0
        ((fun _ _ _ => 1) : Fin 1 → Fin 1 → Fin 1 → ℝ)
        ((fun _ _ _ => 1) : Fin 1 → Fin 1 → Fin 1 → ℝ) 0 0 0
      ≠ vdconv_claim_unmasked 3
        ((fun _ _ _ _ => 1) : Fin 1 → Fin 1 → Fin 1 → Fin 1 → ℝ)
        ((fun _ _ _ _ => 10) : Fin 1 → Fin 1 → Fin 1 → Fin 1 → ℝ)
        ((fun _ => 0) : Fin 1 → ℝ) 1 1 0 0
        ((fun _ _ _ => 1) : Fin 1 → Fin 1 → Fin 1 → ℝ)
        ((fun _ _ _ => 1) : Fin 1 → Fin 1 → Fin 1 → ℝ) 0 0 0 := by
  have hla : ∀ o c u v : Fin 1,
      conv_log_alpha ((fun _ _ _ _ => 1) : Fin 1 → Fin 1 → Fin 1 → Fin 1 → ℝ)
        ((fun _ _ _ _ => 10) : Fin 1 → Fin 1 → Fin 1 → Fin 1 → ℝ) o c u v = 8 :=
    fun _ _ _ _ => la_one_ten
  have hm : ∀ o c u v : Fin 1,
      conv_clip_mask 3 ((fun _ _ _ _ => 1) : Fin 1 → Fin 1 → Fin 1 → Fin 1 → ℝ)
        ((fun _ _ _ _ => 10) : Fin 1 → Fin 1 → Fin 1 → Fin 1 → ℝ) o c u v = 1 := by
    intro o c u v
    unfold conv_clip_mask
    rw [hla]
    norm_num
  have hL :
      dropout_convolution_2d true 3
          ((fun _ _ _ _ => 1) : Fin 1 → Fin 1 → Fin 1 → Fin 1 → ℝ)
          ((fun _ _ _ _ => 10) : Fin 1 → Fin 1 → Fin 1 → Fin 1 → ℝ)
          ((fun _ => 0) : Fin 1 → ℝ) 1 1 0 0
          ((fun _ _ _ => 1) : Fin 1 → Fin 1 → Fin 1 → ℝ)
          ((fun _ _ _ => 1) : Fin 1 → Fin 1 → Fin 1 → ℝ) 0 0 0
        = Real.sqrt (1e-8) := by
    unfold dropout_convolution_2d
    simp only [if_true, conv2d, padded, Fin.sum_univ_one, hm, hla]
    norm_num
  have hR :
      vdconv_claim_unmasked 3
          ((fun _ _ _ _ => 1) : Fin 1 → Fin 1 → Fin 1 → Fin 1 → ℝ)
          ((fun _ _ _ _ => 10) : Fin 1 → Fin 1 → Fin 1 → Fin 1 → ℝ)
          ((fun _ => 0) : Fin 1 → ℝ) 1 1 0 0
          ((fun _ _ _ => 1) : Fin 1 → Fin 1 → Fin 1 → ℝ)
          ((fun _ _ _ => 1) : Fin 1 → Fin 1 → Fin 1 → ℝ) 0 0 0
        = Real.sqrt (Real.exp 8 + 1e-8) := by
    unfold vdconv_claim_unmasked
    simp only [conv2d, padded, Fin.sum_univ_one, hm, hla]
    norm_num
  rw [hL, hR]
  intro heq
  have hlt : Real.sqrt (1e-8) < Real.sqrt (Real.exp 8 + 1e-8) := by
    apply Real.sqrt_lt_sqrt (by norm_num)
    have := Real.exp_pos (8 : ℝ)
    linarith
  exact absurd heq (ne_of_lt hlt)

end VD
